import Mathlib

/-!
Shallow embedding of the `vida` Game-of-Life core (src/cell/mod.rs,
src/cell/grid.rs, src/engine/serial.rs, src/engine/parallel.rs).

Rust `usize` values are modelled as `Nat`; `checked_mul` overflow is the
test `USIZE_MAX < a * b`.  A Rust panic (`expect`, `chunks_exact(0)`'s
assertion, indexing out of bounds) is modelled by an `Option` result that
is `none` exactly on the panicking inputs.
-/

namespace Vida

/-- Rust enum `Cell` from src/cell/mod.rs: `Dead` (the `#[default]`) or `Live`. -/
inductive Cell where
  | Dead
  | Live
deriving DecidableEq

instance : Inhabited Cell := ⟨Cell.Dead⟩

/-- Rust `Cell::is_dead`. -/
def Cell.is_dead : Cell → Bool
  | .Dead => true
  | .Live => false

/-- Rust `Cell::is_live`. -/
def Cell.is_live : Cell → Bool
  | .Dead => false
  | .Live => true

/-- Rust `impl Display for Cell`: Dead renders as the character D, Live as L. -/
def Cell.displayChar : Cell → Char
  | .Dead => 'D'
  | .Live => 'L'

/-- Rust struct `Grid { cells: Box<[Cell]>, columns: usize }` from src/cell/grid.rs.
The boxed slice is modelled as a `List Cell` in row-major order. -/
structure Grid where
  cells : List Cell
  columns : Nat
deriving DecidableEq

/-- `usize::MAX` on the 64-bit platform the crate targets. -/
def USIZE_MAX : Nat := 18446744073709551615

/-- Rust `Grid::new_with(rows, columns, cell)`: `rows.checked_mul(columns)` is
`expect`ed (panic on overflow, modelled by `none`), then the buffer is filled
with `cell`. -/
def Grid.new_with (rows columns : Nat) (cell : Cell) : Option Grid :=
  if rows * columns ≤ USIZE_MAX then
    some { cells := List.replicate (rows * columns) cell, columns := columns }
  else
    none

/-- Rust `Grid::new(rows, columns) = Grid::new_with(rows, columns, Cell::default())`. -/
def Grid.new (rows columns : Nat) : Option Grid :=
  Grid.new_with rows columns Cell.Dead

/-- Rust `Grid::empty() = Grid::new(0, 0)`. -/
def Grid.empty : Option Grid :=
  Grid.new 0 0

/-- Rust `Grid::rows()`: `cells.len() / columns` when `columns > 0`, else 0. -/
def Grid.rows (g : Grid) : Nat :=
  if 0 < g.columns then g.cells.length / g.columns else 0

/-- Rust `Grid::shape() = (rows(), columns())`. -/
def Grid.shape (g : Grid) : Nat × Nat :=
  (g.rows, g.columns)

/-- Rust `Grid::get(row)`: `row.checked_mul(columns)? < cells.len()` guards the
unchecked slice `cells[row*columns .. row*columns + columns]`.  (`checked_mul`
returning `None` on overflow also yields `None` here; in the `Nat` model the
overflowing product compares `≥ cells.len()` and takes the same branch.) -/
def Grid.get (g : Grid) (row : Nat) : Option (List Cell) :=
  if row * g.columns < g.cells.length then
    some ((g.cells.drop (row * g.columns)).take g.columns)
  else
    none

/-- Rust `Grid::get_cell(row, col) = self.get(row).and_then(|slice| slice.get(col))`. -/
def Grid.get_cell (g : Grid) (row col : Nat) : Option Cell :=
  (g.get row).bind fun r => r[col]?

/-- Rust write through `Grid::get_cell_mut(row, col)`: when the bounds-checked
lookup succeeds the referenced buffer slot `row * columns + col` is overwritten,
otherwise nothing happens. -/
def Grid.set_cell (g : Grid) (row col : Nat) (v : Cell) : Grid :=
  if (g.get_cell row col).isSome then
    { cells := g.cells.set (row * g.columns + col) v, columns := g.columns }
  else
    g

/-- Rust `Grid::try_from(grid)`: peeks the first row's length as `columns`
(0 for the empty input), returns `None` as soon as some row's length differs,
otherwise concatenates the rows. -/
def Grid.try_from (rs : List (List Cell)) : Option Grid :=
  let columns := ((rs.head?).map List.length).getD 0
  if ∀ r ∈ rs, r.length = columns then
    some { cells := rs.flatten, columns := columns }
  else
    none

/-- Semantics of `slice::chunks_exact(k)` for `k > 0` (the `k = 0` assertion is
handled at the call sites): successive blocks of exactly `k` elements, the
remainder dropped. -/
def chunksExact (cells : List Cell) (k : Nat) : List (List Cell) :=
  if h : 0 < k ∧ k ≤ cells.length then
    cells.take k :: chunksExact (cells.drop k) k
  else
    []
termination_by cells.length
decreasing_by simp only [List.length_drop]; omega

/-- Rust `impl IntoIterator for &Grid` / `Grid::iter()`:
`cells.chunks_exact(columns)`, which panics (modelled `none`) when
`columns == 0`. -/
def Grid.iter (g : Grid) : Option (List (List Cell)) :=
  if 0 < g.columns then some (chunksExact g.cells g.columns) else none

/-- Rust `impl IntoIterator for &mut Grid` / `Grid::iter_mut()`:
`cells.chunks_exact_mut(columns)`, same zero-chunk-size panic; the row views it
yields are modelled by their contents. -/
def Grid.iter_mut (g : Grid) : Option (List (List Cell)) :=
  if 0 < g.columns then some (chunksExact g.cells g.columns) else none

/-- Rust `impl Display for Grid`: renders each row of `self.iter()` followed by
a newline, so it inherits the `chunks_exact(0)` panic. -/
def Grid.display (g : Grid) : Option String :=
  (g.iter).map fun rows =>
    String.join (rows.map fun r => String.mk (r.map Cell.displayChar) ++ "\n")

/-- Rust struct `SerialEngine { grid: Grid }` from src/engine/serial.rs. -/
structure SerialEngine where
  grid : Grid
deriving DecidableEq

/-- The neighbor-counting loop of `SerialEngine::next_cell_at`: `live_cells`
accumulated over `i in start_row..start_row+3`, `j in start_col..start_col+3`
with `start_row = row.saturating_sub(1)` (Nat subtraction is saturating),
counting positions `(i, j) != (row, col)` with `get_cell(i, j) == Some(&Live)`. -/
def SerialEngine.live_neighbors (e : SerialEngine) (row col : Nat) : Nat :=
  let start_row := row - 1
  let start_col := col - 1
  (((List.range' start_row 3).flatMap fun i =>
      (List.range' start_col 3).map fun j => (i, j)).countP
    fun p => (!(p == (row, col))) && (e.grid.get_cell p.1 p.2 == some Cell.Live))

/-- Rust `SerialEngine::next_cell_at(row, col)`.  The center read
`self.grid[row][col]` panics out of bounds; it is modelled via `get_cell`,
which agrees with the indexing at every in-bounds position (the only positions
`prepare_next_grid` ever passes). -/
def SerialEngine.next_cell_at (e : SerialEngine) (row col : Nat) : Cell :=
  if e.live_neighbors row col = 3 ∨
      (e.live_neighbors row col = 2 ∧ e.grid.get_cell row col = some Cell.Live) then
    Cell.Live
  else
    Cell.Dead

/-- Rust `SerialEngine::prepare_next_grid`: allocates
`Grid::new_with(rows, columns, Dead)` (the overflow `expect` cannot fire since
`rows() * columns() <= cells.len()`), then walks `next.iter_mut().enumerate()`
— which panics when `columns == 0` (`chunks_exact_mut(0)`), modelled `none` —
writing `Live` exactly where `next_cell_at(row, col).is_live()`. -/
def SerialEngine.prepare_next_grid (e : SerialEngine) : Option Grid :=
  if 0 < e.grid.columns then
    some { cells :=
            (List.range e.grid.rows).flatMap fun row =>
              (List.range e.grid.columns).map fun col =>
                if (e.next_cell_at row col).is_live then Cell.Live else Cell.Dead,
           columns := e.grid.columns }
  else
    none

/-- Rust `SerialEngine::update_grid`: computes the next grid, then
`std::mem::replace(&mut self.grid, next)` stores it and returns the old grid. -/
def SerialEngine.update_grid (e : SerialEngine) : Option (Grid × SerialEngine) :=
  (e.prepare_next_grid).map fun next => (e.grid, SerialEngine.mk next)

/-- Rust `<SerialEngine as Engine>::next_grid = self.update_grid()`. -/
def SerialEngine.next_grid (e : SerialEngine) : Option (Grid × SerialEngine) :=
  e.update_grid

/-- The neighbor-counting loop of `ParallelEngine::next_cell_at`
(src/engine/parallel.rs), textually the same scan as the serial one but as an
associated function over the borrowed grid. -/
def ParallelEngine.live_neighbors (grid : Grid) (row col : Nat) : Nat :=
  let start_row := row - 1
  let start_col := col - 1
  (((List.range' start_row 3).flatMap fun i =>
      (List.range' start_col 3).map fun j => (i, j)).countP
    fun p => (!(p == (row, col))) && (grid.get_cell p.1 p.2 == some Cell.Live))

/-- Rust `ParallelEngine::next_cell_at(grid, row, col)`; the center read
`grid[row][col]` is modelled via `get_cell` as in the serial engine. -/
def ParallelEngine.next_cell_at (grid : Grid) (row col : Nat) : Cell :=
  if ParallelEngine.live_neighbors grid row col = 3 ∨
      (ParallelEngine.live_neighbors grid row col = 2 ∧
        grid.get_cell row col = some Cell.Live) then
    Cell.Live
  else
    Cell.Dead

/-- Rust `ParallelEngine::prepare_next_grid`: same double-buffered
construction as the serial engine, with the writes fanned out through
`par_iter_mut` over disjoint rows and cells; `par_chunks_exact_mut(0)` panics
when `columns == 0` (modelled `none`).  Each output slot is written at most
once from the immutable input, so the deterministic denotation is the
row-major table of `next_cell_at`. -/
def ParallelEngine.prepare_next_grid (grid : Grid) : Option Grid :=
  if 0 < grid.columns then
    some { cells :=
            (List.range grid.rows).flatMap fun row =>
              (List.range grid.columns).map fun col =>
                if (ParallelEngine.next_cell_at grid row col).is_live then Cell.Live
                else Cell.Dead,
           columns := grid.columns }
  else
    none

/-- Rust `<ParallelEngine as Engine>::update(&self, grid) = Self::prepare_next_grid(grid)`. -/
def ParallelEngine.update (grid : Grid) : Option Grid :=
  ParallelEngine.prepare_next_grid grid

/-- Modelled from the spec (section 4.4, step 1 and 2), for comparison with the
code's scan: count of Live cells at in-grid positions in the window with row
range [max(row-1,0), row+2) and column range [max(col-1,0), col+2), the center
cell excluded. -/
def specWindowLiveCount (g : Grid) (row col : Nat) : Nat :=
  (((List.range' (row - 1) (row + 2 - (row - 1))).flatMap fun i =>
      (List.range' (col - 1) (col + 2 - (col - 1))).map fun j => (i, j)).countP
    fun p => (!(p == (row, col))) && (g.get_cell p.1 p.2 == some Cell.Live))

/-- Shorthand for `Cell.Dead` in the concrete pattern grids below. -/
def D : Cell := Cell.Dead

/-- Shorthand for `Cell.Live` in the concrete pattern grids below. -/
def L : Cell := Cell.Live

/-- The 5 by 5 horizontal blinker: Live exactly at (2,1), (2,2), (2,3). -/
def blinker : Grid :=
  ⟨[D,D,D,D,D, D,D,D,D,D, D,L,L,L,D, D,D,D,D,D, D,D,D,D,D], 5⟩

/-- What the code actually produces from `blinker` in one step:
Live at (0,2), (1,2), (2,2), (3,2). -/
def blinkerCodeStep : Grid :=
  ⟨[D,D,L,D,D, D,D,L,D,D, D,D,L,D,D, D,D,L,D,D, D,D,D,D,D], 5⟩

/-- The vertical blinker the specification expects after one step:
Live exactly at (1,2), (2,2), (3,2). -/
def blinkerVertical : Grid :=
  ⟨[D,D,D,D,D, D,D,L,D,D, D,D,L,D,D, D,D,L,D,D, D,D,D,D,D], 5⟩

/-- The 4 by 4 still-life block: Live exactly at rows 1-2, columns 1-2. -/
def block : Grid :=
  ⟨[D,D,D,D, D,L,L,D, D,L,L,D, D,D,D,D], 4⟩

/-- The buffer-length invariant of the spec: `cells.len() == rows * columns`. -/
def Grid.Wf (g : Grid) : Prop :=
  g.cells.length = g.rows * g.columns

/-- Grids reachable through the public constructors and the mutating
accessors: `new`/`new_with` (also `empty` and the base grid of `random`),
`try_from`, writes through `get_cell_mut`, and replacement by an engine's
freshly built output. -/
inductive Reachable : Grid → Prop where
  | new_with (rows columns : Nat) (cell : Cell) (g : Grid) :
      Grid.new_with rows columns cell = some g → Reachable g
  | try_from (rs : List (List Cell)) (g : Grid) :
      Grid.try_from rs = some g → Reachable g
  | set_cell (g : Grid) (row col : Nat) (v : Cell) :
      Reachable g → Reachable (g.set_cell row col v)
  | serial_step (g gn : Grid) :
      Reachable g → SerialEngine.prepare_next_grid ⟨g⟩ = some gn → Reachable gn
  | parallel_step (g gn : Grid) :
      Reachable g → ParallelEngine.prepare_next_grid g = some gn → Reachable gn

section HelperLemmas

lemma set_cell_cells_length (g : Grid) (row col : Nat) (v : Cell) :
    (g.set_cell row col v).cells.length = g.cells.length := by
  unfold Grid.set_cell
  split <;> simp

lemma set_cell_columns (g : Grid) (row col : Nat) (v : Cell) :
    (g.set_cell row col v).columns = g.columns := by
  unfold Grid.set_cell
  split <;> rfl

lemma set_cell_shape (g : Grid) (row col : Nat) (v : Cell) :
    (g.set_cell row col v).shape = g.shape := by
  simp [Grid.shape, Grid.rows, set_cell_columns, set_cell_cells_length]

lemma rows_mul_columns_of_len (g : Grid) (X : Nat)
    (h : g.cells.length = X * g.columns) :
    g.cells.length = g.rows * g.columns := by
  rcases Nat.eq_zero_or_pos g.columns with h0 | hpos
  · simp [Grid.rows, h0] at h ⊢
    exact h
  · simp [Grid.rows, hpos, h, Nat.mul_div_cancel X hpos]

lemma flatten_length_of_all (rs : List (List Cell)) (n : Nat)
    (h : ∀ r ∈ rs, r.length = n) : rs.flatten.length = rs.length * n := by
  induction rs with
  | nil => simp
  | cons r rest ih =>
    simp only [List.flatten_cons, List.length_append, List.length_cons]
    rw [h r (by simp), ih (fun q hq => h q (by simp [hq])), Nat.succ_mul,
        Nat.add_comm]

lemma table_length (rows cols : Nat) (f : Nat → Nat → Cell) :
    ((List.range rows).flatMap fun r => (List.range cols).map fun c => f r c).length
      = rows * cols := by
  rw [List.flatMap_def,
      flatten_length_of_all ((List.range rows).map
        fun r => (List.range cols).map fun c => f r c) cols ?_]
  · simp
  · intro r hr
    rcases List.mem_map.mp hr with ⟨i, _, hi⟩
    simp [← hi]

lemma chunksExact_length (l : List Cell) (k : Nat) :
    0 < k → (chunksExact l k).length = l.length / k := by
  induction l, k using chunksExact.induct with
  | case1 l k h ih =>
    intro hk
    rw [chunksExact, dif_pos h, List.length_cons, ih hk, List.length_drop,
        Nat.div_eq_sub_div h.1 h.2]
  | case2 l k h =>
    intro hk
    have hlt : l.length < k := by
      rcases Nat.lt_or_ge l.length k with hc | hc
      · exact hc
      · exact absurd ⟨hk, hc⟩ h
    rw [chunksExact, dif_neg h, List.length_nil, Nat.div_eq_of_lt hlt]

lemma chunksExact_mem_length (l : List Cell) (k : Nat) (r : List Cell) :
    r ∈ chunksExact l k → r.length = k := by
  induction l, k using chunksExact.induct with
  | case1 l k h ih =>
    intro hr
    rw [chunksExact, dif_pos h] at hr
    rcases List.mem_cons.mp hr with h1 | h2
    · subst h1
      rw [List.length_take]
      omega
    · exact ih h2
  | case2 l k h =>
    intro hr
    rw [chunksExact, dif_neg h] at hr
    exact absurd hr (List.not_mem_nil r)

lemma chunksExact_flatten_take (l : List Cell) (k : Nat) :
    0 < k → (chunksExact l k).flatten = l.take (l.length / k * k) := by
  induction l, k using chunksExact.induct with
  | case1 l k h ih =>
    intro hk
    rw [chunksExact, dif_pos h]
    simp only [List.flatten_cons]
    rw [ih hk, List.length_drop, Nat.div_eq_sub_div h.1 h.2, Nat.succ_mul,
        Nat.add_comm, List.take_add]
  | case2 l k h =>
    intro hk
    have hlt : l.length < k := by
      rcases Nat.lt_or_ge l.length k with hc | hc
      · exact hc
      · exact absurd ⟨hk, hc⟩ h
    rw [chunksExact, dif_neg h, Nat.div_eq_of_lt hlt]
    simp

lemma chunksExact_flatten_of_rows (rs : List (List Cell)) (n : Nat) (hn : 0 < n)
    (h : ∀ r ∈ rs, r.length = n) : chunksExact rs.flatten n = rs := by
  induction rs with
  | nil =>
    rw [chunksExact]
    simp
    omega
  | cons r rest ih =>
    have hr : r.length = n := h r (by simp)
    have hlen : n ≤ (r :: rest).flatten.length := by
      simp only [List.flatten_cons, List.length_append]
      omega
    rw [chunksExact, dif_pos ⟨hn, hlen⟩]
    simp only [List.flatten_cons]
    rw [← hr, List.take_left, List.drop_left, hr,
        ih (fun q hq => h q (by simp [hq]))]

end HelperLemmas

/-- Claim C1, evidence of the code bug: at the top-edge position (0, 2) of the
blinker grid both engines' neighbor scans count 3 live cells, because with
`start_row = 0` they scan rows 0, 1 and 2 — yet the claimed window with row
range [max(row-1,0), row+2) = [0, 2) and column range [1, 4) contains no live
cell at all, so the count used by the transition rule is not the claimed
window count. -/
theorem live_neighbors_edge_diverges_from_window :
    SerialEngine.live_neighbors ⟨blinker⟩ 0 2 = 3 ∧
    ParallelEngine.live_neighbors blinker 0 2 = 3 ∧
    specWindowLiveCount blinker 0 2 = 0 := by decide

/-- Claim C2: for every grid the serial and the parallel generation step agree
— both build the same row-major table of `next_cell_at` over the same input
(and both panic on a zero-column grid). -/
theorem serial_parallel_step_eq (g : Grid) :
    SerialEngine.prepare_next_grid ⟨g⟩ = ParallelEngine.prepare_next_grid g := rfl

/-- Claim C3, evidence of the code bug: one generation step of the horizontal
blinker produces a grid that is Live at (0,2), (1,2), (2,2), (3,2) — the edge
scan of rows 0..3 at row 0 breeds a spurious cell at (0, 2) — which differs
from the vertical blinker (Live exactly at (1,2), (2,2), (3,2)) that the claim
demands. -/
theorem blinker_step_diverges :
    SerialEngine.prepare_next_grid ⟨blinker⟩ = some blinkerCodeStep ∧
    ParallelEngine.prepare_next_grid blinker = some blinkerCodeStep ∧
    blinkerCodeStep ≠ blinkerVertical := by decide

/-- Claim C4: the 4 by 4 block with the Live 2 by 2 square at rows 1-2,
columns 1-2 is a fixed point of one generation step, for both engines. -/
theorem block_still_life :
    SerialEngine.prepare_next_grid ⟨block⟩ = some block ∧
    ParallelEngine.prepare_next_grid block = some block := by decide

/-- Claim C5, counterexample: `Grid::new(1, 0)` succeeds (no overflow) but its
`shape()` is (0, 0), not (1, 0) — the row count is not recoverable when
`columns = 0`. -/
theorem new_zero_columns_shape_counterexample :
    Grid.new 1 0 = some (Grid.mk [] 0) ∧ (Grid.mk [] 0).shape = (0, 0) ∧
    (Grid.mk [] 0).shape ≠ (1, 0) := by decide

/-- Claim C5 as amended: `new`/`new_with` fail exactly when `rows * columns`
overflows `usize`; on success every cell of `new`'s grid is Dead and `shape()`
is `(rows, columns)` — except that when `columns = 0` the stored shape is
`(0, 0)`. -/
theorem new_overflow_dead_shape (rows columns : Nat) (cell : Cell) :
    (Grid.new_with rows columns cell = none ↔ USIZE_MAX < rows * columns) ∧
    (∀ g, Grid.new rows columns = some g →
      (∀ c ∈ g.cells, c = Cell.Dead) ∧
      g.shape = (if columns = 0 then 0 else rows, columns)) := by
  constructor
  · rw [Grid.new_with]
    split
    · rename_i hle
      exact iff_of_false (by simp) (by omega)
    · rename_i hgt
      exact iff_of_true rfl (by omega)
  · intro g hg
    rw [Grid.new, Grid.new_with] at hg
    split at hg
    · cases hg
      refine ⟨fun c hc => List.eq_of_mem_replicate hc, ?_⟩
      rcases Nat.eq_zero_or_pos columns with h0 | hpos
      · subst h0
        simp [Grid.shape, Grid.rows]
      · simp [Grid.shape, Grid.rows, hpos, Nat.pos_iff_ne_zero.mp hpos,
             Nat.mul_div_cancel rows hpos]
    · exact Option.noConfusion hg

/-- Claim C5 amended, witness at rows = 2, columns = 3. -/
theorem new_overflow_dead_shape_witness :
    (Grid.mk (List.replicate 6 Cell.Dead) 3).shape = (if (3 : Nat) = 0 then 0 else 2, 3) :=
  ((new_overflow_dead_shape 2 3 Cell.Dead).2
    (Grid.mk (List.replicate 6 Cell.Dead) 3) (by decide)).2

/-- Claim C6: every grid reachable through the public constructors and the
mutating accessors satisfies `cells() = rows() * columns()`, and a write
through `get_cell_mut` never changes the shape. -/
theorem reachable_cells_eq_rows_mul_columns (g : Grid) (h : Reachable g) :
    g.cells.length = g.rows * g.columns ∧
    ∀ row col v, (g.set_cell row col v).shape = g.shape := by
  refine ⟨?_, fun row col v => set_cell_shape g row col v⟩
  induction h with
  | new_with rows columns cell g hg =>
    rw [Grid.new_with] at hg
    split at hg
    · cases hg
      exact rows_mul_columns_of_len _ rows (by simp)
    · exact Option.noConfusion hg
  | try_from rs g hg =>
    simp only [Grid.try_from] at hg
    split at hg
    · rename_i hall
      cases hg
      exact rows_mul_columns_of_len _ rs.length
        (flatten_length_of_all rs _ hall)
    · exact Option.noConfusion hg
  | set_cell g row col v _ ih =>
    have hr : (g.set_cell row col v).rows = g.rows := by
      simp [Grid.rows, set_cell_columns, set_cell_cells_length]
    rw [set_cell_cells_length, hr, set_cell_columns]
    exact ih
  | serial_step g gn _ hstep ih =>
    rw [SerialEngine.prepare_next_grid] at hstep
    split at hstep
    · cases hstep
      exact rows_mul_columns_of_len _ (Grid.mk g.cells g.columns).rows
        (table_length _ _ _)
    · exact Option.noConfusion hstep
  | parallel_step g gn _ hstep ih =>
    rw [ParallelEngine.prepare_next_grid] at hstep
    split at hstep
    · cases hstep
      exact rows_mul_columns_of_len _ g.rows (table_length _ _ _)
    · exact Option.noConfusion hstep

/-- Claim C6, witness: the 1 by 1 grid built by `new_with`, and a write into
it. -/
theorem reachable_cells_eq_rows_mul_columns_witness :
    (Grid.mk [Cell.Dead] 1).cells.length
        = (Grid.mk [Cell.Dead] 1).rows * (Grid.mk [Cell.Dead] 1).columns ∧
    ((Grid.mk [Cell.Dead] 1).set_cell 0 0 Cell.Live).shape
        = (Grid.mk [Cell.Dead] 1).shape := by
  have h := reachable_cells_eq_rows_mul_columns (Grid.mk [Cell.Dead] 1)
    (Reachable.new_with 1 1 Cell.Dead _ (by decide))
  exact ⟨h.1, h.2 0 0 Cell.Live⟩

/-- Claim C7: on a grid satisfying the buffer-length invariant, `get_cell` is
`None` exactly off the grid, and on the grid it returns the cell stored at the
flat row-major index `row * columns + col`. -/
theorem get_cell_bounds_contract (g : Grid) (row col : Nat) (h : g.Wf) :
    ((g.rows ≤ row ∨ g.columns ≤ col) → g.get_cell row col = none) ∧
    (row < g.rows → col < g.columns →
      g.get_cell row col = g.cells[row * g.columns + col]? ∧
      (g.cells[row * g.columns + col]?).isSome = true) := by
  rw [Grid.Wf] at h
  constructor
  · intro hout
    by_cases hrow : row * g.columns < g.cells.length
    · rcases hout with hr | hc
      · exfalso
        rcases Nat.eq_zero_or_pos g.columns with h0 | hpos
        · rw [h, h0, Nat.mul_zero] at hrow
          omega
        · have : g.rows * g.columns ≤ row * g.columns :=
            Nat.mul_le_mul_right _ hr
          omega
      · simp only [Grid.get_cell, Grid.get, if_pos hrow, Option.some_bind]
        apply List.getElem?_eq_none
        calc ((g.cells.drop (row * g.columns)).take g.columns).length
            ≤ g.columns := by
              rw [List.length_take]
              omega
          _ ≤ col := hc
    · simp [Grid.get_cell, Grid.get, hrow]
  · intro hrow hcol
    have hsucc : (row + 1) * g.columns ≤ g.rows * g.columns :=
      Nat.mul_le_mul_right _ hrow
    have hcpos : 0 < g.columns := Nat.lt_of_le_of_lt (Nat.zero_le col) hcol
    have hlt : row * g.columns < g.cells.length := by
      rw [h]
      have : row * g.columns + g.columns = (row + 1) * g.columns := by ring
      omega
    have hidx : row * g.columns + col < g.cells.length := by
      rw [h]
      have : row * g.columns + g.columns = (row + 1) * g.columns := by ring
      omega
    constructor
    · simp only [Grid.get_cell, Grid.get, if_pos hlt, Option.some_bind]
      rw [List.getElem?_take_of_lt hcol, List.getElem?_drop]
    · rw [List.getElem?_eq_getElem hidx]
      rfl

/-- Claim C7, witness on the 2 by 3 grid `[[D,L,D],[L,D,L]]`: position (5, 0)
is absent and position (1, 2) is the flat slot 1*3+2. -/
theorem get_cell_bounds_contract_witness :
    (Grid.mk [D, L, D, L, D, L] 3).get_cell 5 0 = none ∧
    (Grid.mk [D, L, D, L, D, L] 3).get_cell 1 2
      = (Grid.mk [D, L, D, L, D, L] 3).cells[1 * 3 + 2]? := by
  have h := get_cell_bounds_contract (Grid.mk [D, L, D, L, D, L] 3) 5 0
    (by unfold Grid.Wf Grid.rows; decide)
  have h2 := get_cell_bounds_contract (Grid.mk [D, L, D, L, D, L] 3) 1 2
    (by unfold Grid.Wf Grid.rows; decide)
  exact ⟨h.1 (Or.inl (by decide)), (h2.2 (by decide) (by decide)).1⟩

/-- Claim C8, counterexample: `try_from([[], []])` succeeds — all rows share
length 0 — but row-wise iteration of the resulting zero-column grid panics
(`chunks_exact(0)`), so it does not reproduce the two input rows. -/
theorem try_from_empty_rows_not_round_trip :
    Grid.try_from [([] : List Cell), []] = some (Grid.mk [] 0) ∧
    (Grid.mk [] 0).iter = none ∧
    (Grid.mk [] 0).iter ≠ some [([] : List Cell), []] := by decide

/-- Claim C8 as amended: a row collection in which some row's length differs
from the first row's is rejected; a nonempty collection of rows sharing one
positive length round-trips through `try_from` and row-wise iteration; the
empty collection yields the zero-row, zero-column grid (whose iteration —
like that of any zero-column grid — panics rather than reproducing the
input). -/
theorem try_from_round_trip (rs : List (List Cell)) (n : Nat) :
    ((∃ r ∈ rs, r.length ≠ ((rs.head?).map List.length).getD 0) →
        Grid.try_from rs = none) ∧
    (0 < n → rs ≠ [] → (∀ r ∈ rs, r.length = n) →
        Grid.try_from rs = some (Grid.mk rs.flatten n) ∧
        (Grid.mk rs.flatten n).iter = some rs) ∧
    (Grid.try_from ([] : List (List Cell)) = some (Grid.mk [] 0) ∧
      (Grid.mk [] 0).shape = (0, 0)) := by
  refine ⟨?_, ?_, by decide⟩
  · rintro ⟨r, hr, hne⟩
    simp only [Grid.try_from]
    split
    · rename_i hall
      exact absurd (hall r hr) hne
    · rfl
  · intro hn hne hall
    have hhead : ((rs.head?).map List.length).getD 0 = n := by
      rcases rs with _ | ⟨r0, rest⟩
      · exact absurd rfl hne
      · simp [hall r0 (by simp)]
    constructor
    · simp only [Grid.try_from, hhead]
      rw [if_pos hall]
    · rw [Grid.iter, if_pos hn, chunksExact_flatten_of_rows rs n hn hall]

/-- Claim C8 amended, witness on the single row `[[Live]]`. -/
theorem try_from_round_trip_witness :
    Grid.try_from [[Cell.Live]] = some (Grid.mk [Cell.Live] 1) ∧
    (Grid.mk [Cell.Live] 1).iter = some [[Cell.Live]] := by
  have h := (try_from_round_trip [[Cell.Live]] 1).2.1 (by decide) (by decide)
    (by decide)
  simpa using h

/-- Claim C9: whenever `next_grid` returns, the grid it hands back is exactly
the grid the engine held before the call, and the engine now holds the freshly
computed next generation — so the returned sequence lags the computed one by
one step. -/
theorem next_grid_returns_previous (e : SerialEngine) (out : Grid × SerialEngine)
    (h : e.next_grid = some out) :
    out.1 = e.grid ∧ e.prepare_next_grid = some out.2.grid := by
  rw [SerialEngine.next_grid, SerialEngine.update_grid] at h
  cases hp : e.prepare_next_grid with
  | none =>
    rw [hp] at h
    exact Option.noConfusion h
  | some next =>
    rw [hp] at h
    simp only [Option.map_some'] at h
    cases h
    exact ⟨rfl, rfl⟩

/-- Claim C9, witness: the 1 by 1 engine holding a Live cell returns that grid
and stores the all-Dead next generation. -/
theorem next_grid_returns_previous_witness :
    ((Grid.mk [Cell.Live] 1, SerialEngine.mk (Grid.mk [Cell.Dead] 1)).1
        = (SerialEngine.mk (Grid.mk [Cell.Live] 1)).grid) ∧
    (SerialEngine.mk (Grid.mk [Cell.Live] 1)).prepare_next_grid
        = some (Grid.mk [Cell.Live] 1, SerialEngine.mk (Grid.mk [Cell.Dead] 1)).2.grid :=
  next_grid_returns_previous (SerialEngine.mk (Grid.mk [Cell.Live] 1))
    (Grid.mk [Cell.Live] 1, SerialEngine.mk (Grid.mk [Cell.Dead] 1)) (by decide)

/-- Claim C10: when `columns > 0`, row-wise iteration yields exactly `rows()`
row views, each of length `columns()`, concatenating in row-major order to the
first `rows() * columns()` buffer cells, and it does yield; when
`columns = 0`, `iter`, `iter_mut` and the Display rendering all panic
(`chunks_exact` with chunk size zero). -/
theorem iter_rows_contract (g : Grid) :
    (∀ l, g.iter = some l →
        l.length = g.rows ∧ (∀ r ∈ l, r.length = g.columns) ∧
        l.flatten = g.cells.take (g.rows * g.columns)) ∧
    (0 < g.columns → (g.iter).isSome = true) ∧
    (g.columns = 0 → g.iter = none ∧ g.iter_mut = none ∧ g.display = none) := by
  refine ⟨?_, ?_, ?_⟩
  · intro l hl
    rw [Grid.iter] at hl
    split at hl
    · rename_i hpos
      cases hl
      refine ⟨?_, fun r hr => chunksExact_mem_length _ _ r hr, ?_⟩
      · rw [chunksExact_length _ _ hpos, Grid.rows, if_pos hpos]
      · rw [chunksExact_flatten_take _ _ hpos, Grid.rows, if_pos hpos]
    · exact Option.noConfusion hl
  · intro hpos
    simp [Grid.iter, hpos]
  · intro h0
    simp [Grid.iter, Grid.iter_mut, Grid.display, h0]

/-- Claim C10, witness: a 2 by 2 grid iterates into two rows whose
concatenation is the buffer, and the zero-column grid panics everywhere. -/
theorem iter_rows_contract_witness :
    ([[D, L], [L, D]] : List (List Cell)).length = (Grid.mk [D, L, L, D] 2).rows ∧
    ([[D, L], [L, D]] : List (List Cell)).flatten
      = (Grid.mk [D, L, L, D] 2).cells.take
          ((Grid.mk [D, L, L, D] 2).rows * (Grid.mk [D, L, L, D] 2).columns) ∧
    ((Grid.mk [] 0).iter = none ∧ (Grid.mk [] 0).iter_mut = none ∧
      (Grid.mk [] 0).display = none) := by
  have hch : chunksExact [D, L, L, D] 2 = [[D, L], [L, D]] :=
    chunksExact_flatten_of_rows [[D, L], [L, D]] 2 (by decide) (by decide)
  have hiter : (Grid.mk [D, L, L, D] 2).iter = some [[D, L], [L, D]] := by
    rw [Grid.iter, if_pos (by decide)]
    exact congrArg some hch
  have h := (iter_rows_contract (Grid.mk [D, L, L, D] 2)).1 [[D, L], [L, D]] hiter
  have h0 := (iter_rows_contract (Grid.mk [] 0)).2.2 rfl
  exact ⟨h.1, h.2.2, h0⟩

end Vida
